import Mathlib

/-!
Shallow embedding of the `score.shell` module (`src/score/shell/_init.py`)
and proofs about its specification.

The Python module is a thin orchestration layer:
  * `ConfiguredShellModule.__call__` builds a scoped environment
    (`_create_env`), then either spawns the configured interactive backend
    or resolves names in a one-off expression and evaluates it;
  * `_create_env` is a `contextlib.contextmanager` that seeds the
    environment with the application handle (`score`) and optionally a
    context instance (`ctx`), runs the configured callbacks, yields, and
    destroys the context on both the normal and the error exit path;
  * `_extract_dotted_path` reconstructs dotted names from AST nodes;
  * `Shell.spawn` performs availability check / autoinstall dispatch;
  * `init` resolves the configured backend and callbacks.

External collaborators (Python's `ast.parse`, `eval`, `__import__`,
`score.init.parse_dotted_path`, and the concrete REPL libraries) are
modelled as oracles passed in as parameters; side-effecting calls the
claims talk about (callback invocation, import attempts, install, spawn,
context destruction) are recorded in an explicit event trace.
-/

/-- Python values that can appear in the shell environment of the embedding:
integers (what evaluating `1 + 1` produces), imported modules, the opaque
application handle (`self.score`), the context instance created by
`self.ctx.Context()`, Python's `None` (the result of `spawn`), and a free
representation of attribute access results. -/
inductive Value where
  | int (n : Int) : Value
  | module (name : String) : Value
  | appHandle : Value
  | ctxInstance : Value
  | pyNone : Value
  | attr (base : Value) (field : String) : Value
  deriving DecidableEq

/-- Python exceptions (all `Exception` subclasses, hence caught by the
`except Exception` clause of `_create_env`) that the embedded code can
raise. -/
inductive Err where
  | syntaxError (source : String) : Err
  | nameError (name : String) : Err
  | typeError (msg : String) : Err
  | keyError (key : String) : Err
  | configurationError (msg : String) : Err
  | exception (msg : String) : Err
  | assertionError (msg : String) : Err
  deriving DecidableEq

/-- The fragment of Python's expression AST that the embedding models:
number literals, identifier references (`ast.Name`), attribute access
(`ast.Attribute`) and addition (`ast.BinOp` with `ast.Add`). -/
inductive Expr where
  | num (n : Int) : Expr
  | name (id : String) : Expr
  | attr (base : Expr) (field : String) : Expr
  | binAdd (left right : Expr) : Expr
  deriving DecidableEq

/-- The shell environment: a Python `dict` from identifiers to values,
embedded as an association list whose keys stay unique because all writes
go through `envInsert`. -/
abbrev Env := List (String × Value)

/-- Python `env[key]` lookup (as an `Option`; `none` plays the role of a
`KeyError` / `key not in env`). -/
def envLookup : Env → String → Option Value
  | [], _ => none
  | (k, v) :: rest, key => if k = key then some v else envLookup rest key

/-- Python `env[key] = val`: overwrite in place if the key is present,
append otherwise. -/
def envInsert : Env → String → Value → Env
  | [], key, val => [(key, val)]
  | (k, v) :: rest, key, val =>
      if k = key then (k, val) :: rest else (k, v) :: envInsert rest key val

/-- Observable side effects of one façade call, recorded in order. -/
inductive Event where
  | ctxCreated : Event
  | callbackCalled (index : Nat) (env : Env) : Event
  | importCalled (name : String) : Event
  | evalCalled (source : String) : Event
  | installCalled (backend : String) : Event
  | spawnCalled (backend : String) (env : Env) : Event
  | destroyCalled (ctx : Value) (error : Option Err) : Event
  deriving DecidableEq

/-- `_extract_dotted_path` from the source: `ast.Name` nodes yield their
identifier, `ast.Attribute` nodes yield `'%s.%s' % (recursive, attr)` —
note that when the recursive call returns Python `None` (any other node
kind as the base), the `%s` format renders it as the string `"None"`,
which is reproduced here. All other nodes yield `None`. -/
def _extract_dotted_path : Expr → Option String
  | .name s => some s
  | .attr base field =>
      match _extract_dotted_path base with
      | some p => some (p ++ "." ++ field)
      | none => some ("None." ++ field)
  | _ => none

/-- All nodes of an expression, as produced by `ast.walk` (the source's
walk is breadth-first; only the set of walked nodes matters to the
resolver, so a depth-first enumeration is used). -/
def Expr.nodes : Expr → List Expr
  | .num n => [.num n]
  | .name s => [.name s]
  | .attr b f => .attr b f :: Expr.nodes b
  | .binAdd l r => .binAdd l r :: (Expr.nodes l ++ Expr.nodes r)

/-- Python's `'.' in name` test on a string, over its character list. -/
def hasDot (s : String) : Bool := s.data.contains '.'

/-- One iteration of the resolver loop in `ConfiguredShellModule.__call__`:
extract the dotted path of the node (`if not name: continue` skips the
empty string), call `__import__(name)` (the oracle `importOk` tells
whether the import succeeds; on failure the `ImportError` is swallowed by
`except ImportError: pass`), and bind `env[name] = module` only when the
module was imported, `'.' not in name` and `name not in env`. -/
def resolveOne (importOk : String → Bool) (env : Env) (node : Expr) :
    Env × List Event :=
  match _extract_dotted_path node with
  | none => (env, [])
  | some name =>
      if name = "" then (env, [])
      else if importOk name then
        if hasDot name = false ∧ envLookup env name = none then
          (envInsert env name (.module name), [.importCalled name])
        else (env, [.importCalled name])
      else (env, [.importCalled name])

/-- The full resolver loop `for node in ast.walk(ast.parse(command))`. -/
def resolveNames (importOk : String → Bool) (env : Env) :
    List Expr → Env × List Event
  | [] => (env, [])
  | n :: rest =>
      ((resolveNames importOk (resolveOne importOk env n).1 rest).1,
       (resolveOne importOk env n).2
         ++ (resolveNames importOk (resolveOne importOk env n).1 rest).2)

/-- Modelled from the spec: Python's built-in `eval(command, env)` — an
external collaborator ("evaluate the expression as a single Python-style
expression against the environment"). Number literals evaluate to
integers, a name to its binding in `env` (a missing name raises
`NameError`; builtins are not modelled), attribute access to a free
attribute value, and `+` to integer addition (a `TypeError` on anything
else). -/
def evalExpr (env : Env) : Expr → Except Err Value
  | .num n => .ok (.int n)
  | .name s =>
      match envLookup env s with
      | some v => .ok v
      | none => .error (.nameError s)
  | .attr base field =>
      match evalExpr env base with
      | .ok v => .ok (.attr v field)
      | .error e => .error e
  | .binAdd l r =>
      match evalExpr env l, evalExpr env r with
      | .ok (.int a), .ok (.int b) => .ok (.int (a + b))
      | .ok _, .ok _ => .error (.typeError "unsupported operand type for +")
      | .error e, _ => .error e
      | .ok _, .error e => .error e

instance {ε α : Type} [DecidableEq ε] [DecidableEq α] :
    DecidableEq (Except ε α) := fun x y =>
  match x, y with
  | .ok a, .ok b =>
      if h : a = b then isTrue (congrArg Except.ok h)
      else isFalse (fun hc => h (Except.ok.inj hc))
  | .error a, .error b =>
      if h : a = b then isTrue (congrArg Except.error h)
      else isFalse (fun hc => h (Except.error.inj hc))
  | .ok _, .error _ => isFalse (fun hc => Except.noConfusion hc)
  | .error _, .ok _ => isFalse (fun hc => Except.noConfusion hc)

/-- A configured shell backend (an instance of a `Shell` subclass).
`is_available` is the value returned by the instance's `_is_available()`
method; `install_result` and `spawn_result` are the outcomes of its
`_install()` and `_spawn(env)` methods (`.ok ()` when the method returns
normally, `.error e` when it raises `e`). -/
structure ShellBackend where
  name : String
  autoinstall : Bool
  is_available : Bool
  install_result : Except Err Unit
  spawn_result : Except Err Unit
  deriving DecidableEq

/-- `Shell.spawn` from the source: if `not self._is_available()`, either
raise `Exception("Configured shell `%s' not available" % self.name)` when
autoinstall is off, or run `self._install()` first; finally run
`self._spawn(env)` (whose `None` result is what `spawn` returns). -/
def Shell.spawn (b : ShellBackend) (env : Env) : Except Err Unit × List Event :=
  if b.is_available = false then
    if b.autoinstall = false then
      (.error (.exception ("Configured shell \x60" ++ b.name ++ "\x27 not available")), [])
    else
      match b.install_result with
      | .error e => (.error e, [.installCalled b.name])
      | .ok _ => (b.spawn_result, [.installCalled b.name, .spawnCalled b.name env])
  else (b.spawn_result, [.spawnCalled b.name env])

/-- `PythonShell`: name `'python'`, `_is_available` returns `True`,
`_install` is `assert False, 'Should not be here'`, `_spawn` runs
`code.interact(local=env)` (an external REPL that returns normally when
the user exits). -/
def PythonShell (autoinstall : Bool) : ShellBackend :=
  { name := "python", autoinstall := autoinstall, is_available := true,
    install_result := .error (.assertionError "Should not be here"),
    spawn_result := .ok () }

/-- `BPythonShell`: `_is_available` tries `import bpython` (the oracle
decides), `_install` shells out to pip and `_spawn` embeds the external
REPL (both opaque external actions modelled as returning normally). -/
def BPythonShell (importOk : String → Bool) (autoinstall : Bool) : ShellBackend :=
  { name := "bpython", autoinstall := autoinstall,
    is_available := importOk "bpython",
    install_result := .ok (), spawn_result := .ok () }

/-- `IPythonShell`: same shape as `BPythonShell` for the `IPython`
distribution. -/
def IPythonShell (importOk : String → Bool) (autoinstall : Bool) : ShellBackend :=
  { name := "ipython", autoinstall := autoinstall,
    is_available := importOk "IPython",
    install_result := .ok (), spawn_result := .ok () }

/-- `Shell.get` from the source: the fixed registry
`{'python': PythonShell, 'ipython': IPythonShell, 'bpython': BPythonShell}`
(`.get(name)` returns `None` on a miss). The classes' availability probes
are evaluated against the import oracle. -/
def Shell.get (importOk : String → Bool) (name : String) :
    Option (Bool → ShellBackend) :=
  if name = "python" then some PythonShell
  else if name = "ipython" then some (IPythonShell importOk)
  else if name = "bpython" then some (BPythonShell importOk)
  else none

/-- The configured module object produced by `init`: `hasCtx` models the
truthiness of `self.ctx` (whether a context factory was supplied),
`score` is the application handle assigned by `_finalize`, and each
callback is a (total) function mutating the environment, per the spec's
callback type `mapping -> void`. -/
structure ConfiguredShellModule where
  hasCtx : Bool
  backend : ShellBackend
  callbacks : List (Env → Env)
  score : Value

/-- The environment right after the seeding steps of `_create_env`:
`env = {'score': self.score}`, then `env['ctx'] = self.ctx.Context()`
when a context factory is configured. -/
def envSeed (m : ConfiguredShellModule) : Env :=
  if m.hasCtx then envInsert [("score", m.score)] "ctx" .ctxInstance
  else [("score", m.score)]

/-- Events emitted by the seeding steps (the context creation). -/
def seedTrace (m : ConfiguredShellModule) : List Event :=
  if m.hasCtx then [.ctxCreated] else []

/-- `for callback in self.callbacks: callback(env)` — the resulting
environment. -/
def applyCbs : List (Env → Env) → Env → Env
  | [], env => env
  | c :: rest, env => applyCbs rest (c env)

/-- The callback invocation trace: one `callbackCalled` event per
configured callback, in registration order, carrying the environment the
callback receives. -/
def callbackTrace : List (Env → Env) → Env → Nat → List Event
  | [], _, _ => []
  | c :: rest, env, i => .callbackCalled i env :: callbackTrace rest (c env) (i + 1)

/-- The environment the `with`-body of `__call__` receives (after seeding
and all callbacks). -/
def envAtBody (m : ConfiguredShellModule) : Env :=
  applyCbs m.callbacks (envSeed m)

/-- The expression branch of `__call__`'s body: `ast.parse(command)` (the
oracle `parse` returns `none` exactly when the parser raises
`SyntaxError`), the resolver loop over all walked nodes, then
`eval(command, env)`. Returns the result, the (mutated) environment and
the emitted events. -/
def exprBody (importOk : String → Bool) (parse : String → Option Expr)
    (c : String) (env : Env) : Except Err Value × Env × List Event :=
  match parse c with
  | none => (.error (.syntaxError c), env, [])
  | some e =>
      (evalExpr (resolveNames importOk env e.nodes).1 e,
       (resolveNames importOk env e.nodes).1,
       (resolveNames importOk env e.nodes).2 ++ [.evalCalled c])

/-- The spawn branch of `__call__`'s body:
`return self.backend.spawn(env)` (which returns `None` on success). -/
def spawnBody (m : ConfiguredShellModule) (env : Env) :
    Except Err Value × Env × List Event :=
  match (Shell.spawn m.backend env).1 with
  | .ok _ => (.ok .pyNone, env, (Shell.spawn m.backend env).2)
  | .error e => (.error e, env, (Shell.spawn m.backend env).2)

/-- The `with`-body of `__call__`: `if not command:` — both `None` and
the empty string are falsy and take the spawn branch. -/
def runBody (m : ConfiguredShellModule) (importOk : String → Bool)
    (parse : String → Option Expr) (command : Option String) (env : Env) :
    Except Err Value × Env × List Event :=
  match command with
  | none => spawnBody m env
  | some c => if c = "" then spawnBody m env else exprBody importOk parse c env

/-- The teardown half of `_create_env`: on normal completion
`env['ctx'].destroy()`, on a body failure `e` (caught by
`except Exception as e`) `env['ctx'].destroy(e); raise e`. The lookup
`env['ctx']` uses the environment as mutated by the body; if the key is
missing the lookup itself raises `KeyError` (on the success path that
`KeyError` is then caught and the `destroy(e)` lookup re-raises it). -/
def teardown (m : ConfiguredShellModule) (env : Env)
    (result : Except Err Value) : Except Err Value × List Event :=
  if m.hasCtx then
    match envLookup env "ctx" with
    | some c =>
        match result with
        | .ok v => (.ok v, [.destroyCalled c none])
        | .error e => (.error e, [.destroyCalled c (some e)])
    | none => (.error (.keyError "ctx"), [])
  else (result, [])

/-- The body outcome of one façade call (result, mutated environment,
body events). -/
def bodyOut (m : ConfiguredShellModule) (importOk : String → Bool)
    (parse : String → Option Expr) (command : Option String) :
    Except Err Value × Env × List Event :=
  runBody m importOk parse command (envAtBody m)

/-- `ConfiguredShellModule.__call__`: open the scoped environment, run
the body, tear the context down, and return the result together with the
full ordered event trace. -/
def ConfiguredShellModule.call (m : ConfiguredShellModule)
    (importOk : String → Bool) (parse : String → Option Expr)
    (command : Option String) : Except Err Value × List Event :=
  ((teardown m (bodyOut m importOk parse command).2.1
      (bodyOut m importOk parse command).1).1,
   seedTrace m ++ callbackTrace m.callbacks (envSeed m) 0
     ++ (bodyOut m importOk parse command).2.2
     ++ (teardown m (bodyOut m importOk parse command).2.1
          (bodyOut m importOk parse command).1).2)

/-- The merged configuration dictionary (`defaults.copy()` updated with
the caller's `confdict`): keys `backend`, `backend.autoinstall`,
`callbacks` (the latter already run through `parse_list`). -/
structure ShellConf where
  backend : String := "python"
  autoinstall : Bool := true
  callbacks : List String := []

/-- The module defaults `{'backend': 'python', 'backend.autoinstall':
True, 'callbacks': []}`. -/
def defaults : ShellConf := {}

/-- A Python object a dotted path may resolve to: `isCallable` is what
`callable(obj)` returns; `asShellClass` is the object's behaviour when
called with the autoinstall flag (as `shell_cls(conf['backend.autoinstall'])`
does), `asCallback` its behaviour when called with the environment
mapping. Calling a non-callable object raises `TypeError`. -/
structure PyObj where
  isCallable : Bool
  asShellClass : Bool → ShellBackend
  asCallback : Env → Env

/-- The callback-resolution loop of `init`: each configured path is run
through `parse_dotted_path` (modelled from the spec: the resolution
oracle; a failed resolution surfaces a configuration error naming the
invalid value) and checked with
`if not callable(callback): raise ConfigurationError('Given callback not callable: %s' % path)`. -/
def resolveCallbacks (parse_dotted_path : String → Option PyObj) :
    List String → Except Err (List (Env → Env))
  | [] => .ok []
  | path :: rest =>
      match parse_dotted_path path with
      | none => .error (.configurationError path)
      | some obj =>
          if obj.isCallable then
            match resolveCallbacks parse_dotted_path rest with
            | .ok fs => .ok (obj.asCallback :: fs)
            | .error e => .error e
          else .error (.configurationError ("Given callback not callable: " ++ path))

/-- `init(confdict, ctx)` from the source: look the backend up in the
registry, fall back to `parse_dotted_path` (modelled from the spec, see
`resolveCallbacks`), construct the backend with the autoinstall flag,
resolve the callbacks, and build the configured module. `hasCtx` is the
truthiness of the `ctx` argument and `score` the application handle that
`_finalize` later assigns. -/
def init (conf : ShellConf) (hasCtx : Bool) (importOk : String → Bool)
    (parse_dotted_path : String → Option PyObj) (score : Value) :
    Except Err ConfiguredShellModule :=
  let shell_cls : Except Err (Bool → ShellBackend) :=
    match Shell.get importOk conf.backend with
    | some cls => .ok cls
    | none =>
        match parse_dotted_path conf.backend with
        | none => .error (.configurationError conf.backend)
        | some obj =>
            if obj.isCallable then .ok obj.asShellClass
            else .error (.typeError conf.backend)
  match shell_cls with
  | .error e => .error e
  | .ok cls =>
      match resolveCallbacks parse_dotted_path conf.callbacks with
      | .error e => .error e
      | .ok cbs =>
          .ok { hasCtx := hasCtx, backend := cls conf.autoinstall,
                callbacks := cbs, score := score }

/-- A callback leaves the binding of key `k` untouched (the spec's
assumption that callbacks do not remove the application-handle or
context keys). -/
def preservesKey (k : String) (f : Env → Env) : Prop :=
  ∀ env, envLookup (f env) k = envLookup env k

/-- Whether an event is a context destruction. -/
def Event.isDestroy : Event → Bool
  | .destroyCalled _ _ => true
  | _ => false

/-- The destroy events of a trace. -/
def destroyEvents (trace : List Event) : List Event :=
  trace.filter Event.isDestroy

/-- Whether an event is a callback invocation. -/
def Event.isCallback : Event → Bool
  | .callbackCalled _ _ => true
  | _ => false

/-- Whether an event belongs to the call's body (import attempt,
evaluation, install or spawn). -/
def Event.isBody : Event → Bool
  | .importCalled _ => true
  | .evalCalled _ => true
  | .installCalled _ => true
  | .spawnCalled _ _ => true
  | _ => false

/-- A parse oracle for the concrete expression strings used in the
scenario checks (`ast.parse` on these inputs). -/
def sampleParse : String → Option Expr := fun s =>
  if s = "1 + 1" then some (.binAdd (.num 1) (.num 1))
  else if s = "score" then some (.name "score")
  else if s = "x" then some (.name "x")
  else if s = "os.path" then some (.attr (.name "os") "path")
  else none

/-- A configured module with a context factory, the python backend and no
callbacks, for the concrete scenario checks. -/
def sampleCtxModule : ConfiguredShellModule :=
  { hasCtx := true, backend := PythonShell true, callbacks := [], score := .appHandle }

/-- A configured module without a context factory (the end-to-end
scenario of the spec). -/
def samplePythonModule (a : Bool) : ConfiguredShellModule :=
  { hasCtx := false, backend := PythonShell a, callbacks := [], score := .appHandle }

/-- A concrete callback that adds one binding and leaves `score` and
`ctx` untouched. -/
def sampleCallback : Env → Env := fun env => envInsert env "answer" (.int 42)

/-- A configured module with a context factory and one callback. -/
def sampleCbModule : ConfiguredShellModule :=
  { hasCtx := true, backend := PythonShell true, callbacks := [sampleCallback],
    score := .appHandle }

lemma envLookup_insert_self (env : Env) (k : String) (v : Value) :
    envLookup (envInsert env k v) k = some v := by
  induction env with
  | nil => simp [envInsert, envLookup]
  | cons p rest ih =>
      by_cases h : p.1 = k
      · simp [envInsert, envLookup, h]
      · simp [envInsert, envLookup, h, ih]

lemma envLookup_insert_ne (env : Env) (k key : String) (v : Value)
    (h : k ≠ key) :
    envLookup (envInsert env k v) key = envLookup env key := by
  induction env with
  | nil => simp [envInsert, envLookup, h]
  | cons p rest ih =>
      by_cases hp : p.1 = k
      · simp [envInsert, envLookup, hp, h]
      · simp [envInsert, envLookup, hp, ih]

lemma envSeed_score (m : ConfiguredShellModule) :
    envLookup (envSeed m) "score" = some m.score := by
  cases h : m.hasCtx <;>
    simp [envSeed, h, envInsert, envLookup]

lemma envSeed_ctx (m : ConfiguredShellModule) :
    envLookup (envSeed m) "ctx" =
      if m.hasCtx then some .ctxInstance else none := by
  cases h : m.hasCtx <;>
    simp [envSeed, h, envInsert, envLookup]

lemma applyCbs_preserves (k : String) :
    ∀ (cbs : List (Env → Env)) (env : Env),
    (∀ f ∈ cbs, preservesKey k f) →
    envLookup (applyCbs cbs env) k = envLookup env k := by
  intro cbs
  induction cbs with
  | nil => intro env _; rfl
  | cons c rest ih =>
      intro env h
      have hc : preservesKey k c := h c (List.mem_cons_self c rest)
      have hr := ih (c env) (fun f hf => h f (List.mem_cons_of_mem c hf))
      simp [applyCbs]
      rw [hr, hc env]

lemma resolveOne_fst_lookup (io : String → Bool) (env : Env) (n : Expr)
    (k : String) :
    envLookup (resolveOne io env n).1 k =
      if _extract_dotted_path n = some k ∧ ¬k = "" ∧ io k = true
          ∧ hasDot k = false ∧ envLookup env k = none
      then some (.module k) else envLookup env k := by
  cases hx : _extract_dotted_path n with
  | none =>
      rw [if_neg]
      · simp [resolveOne, hx]
      · rintro ⟨hk, -⟩
        simp at hk
  | some name =>
      by_cases hne : name = ""
      · subst hne
        rw [if_neg]
        · simp [resolveOne, hx]
        · rintro ⟨hk, hk2, -⟩
          injection hk with hk
          exact hk2 hk.symm
      · by_cases hio : io name
        · by_cases hcond : hasDot name = false ∧ envLookup env name = none
          · have h1 : (resolveOne io env n).1 = envInsert env name (.module name) := by
              simp [resolveOne, hx, hne, hio, hcond]
            rw [h1]
            by_cases hk : k = name
            · subst hk
              rw [envLookup_insert_self, if_pos ⟨rfl, hne, hio, hcond.1, hcond.2⟩]
            · rw [envLookup_insert_ne _ _ _ _ (fun h => hk h.symm), if_neg]
              rintro ⟨hk2, -⟩
              injection hk2 with hk2
              exact hk hk2.symm
          · have h1 : (resolveOne io env n).1 = env := by
              simp [resolveOne, hx, hne, hio, hcond]
            rw [h1, if_neg]
            rintro ⟨hk2, -, -, hd, hn⟩
            injection hk2 with hk2
            subst hk2
            exact hcond ⟨hd, hn⟩
        · have h1 : (resolveOne io env n).1 = env := by
            simp [resolveOne, hx, hne, hio]
          rw [h1, if_neg]
          rintro ⟨hk2, -, hiok, -⟩
          injection hk2 with hk2
          subst hk2
          rw [hiok] at hio
          exact hio rfl

lemma resolveNames_fst_cons (io : String → Bool) (env : Env) (n : Expr)
    (rest : List Expr) :
    (resolveNames io env (n :: rest)).1 =
      (resolveNames io (resolveOne io env n).1 rest).1 := rfl

lemma resolveNames_snd_cons (io : String → Bool) (env : Env) (n : Expr)
    (rest : List Expr) :
    (resolveNames io env (n :: rest)).2 =
      (resolveOne io env n).2
        ++ (resolveNames io (resolveOne io env n).1 rest).2 := rfl

lemma resolveNames_fst_lookup (io : String → Bool) :
    ∀ (ns : List Expr) (env : Env) (k : String),
    envLookup (resolveNames io env ns).1 k =
      if k ∈ ns.filterMap _extract_dotted_path ∧ ¬k = "" ∧ io k = true
          ∧ hasDot k = false ∧ envLookup env k = none
      then some (.module k) else envLookup env k := by
  intro ns
  induction ns with
  | nil =>
      intro env k
      rw [if_neg]
      · rfl
      · rintro ⟨hk, -⟩
        simp at hk
  | cons n rest ih =>
      intro env k
      rw [resolveNames_fst_cons, ih]
      by_cases hC0 : _extract_dotted_path n = some k ∧ ¬k = "" ∧ io k = true
          ∧ hasDot k = false ∧ envLookup env k = none
      · have hins : envLookup (resolveOne io env n).1 k = some (.module k) := by
          rw [resolveOne_fst_lookup, if_pos hC0]
        rw [if_neg (by rintro ⟨-, -, -, -, hn⟩; rw [hins] at hn; cases hn)]
        rw [hins, if_pos]
        refine ⟨?_, hC0.2.1, hC0.2.2.1, hC0.2.2.2.1, hC0.2.2.2.2⟩
        simp [List.filterMap_cons, hC0.1]
      · have henv : envLookup (resolveOne io env n).1 k = envLookup env k := by
          rw [resolveOne_fst_lookup, if_neg hC0]
        rw [henv]
        have hiff : (k ∈ rest.filterMap _extract_dotted_path ∧ ¬k = ""
              ∧ io k = true ∧ hasDot k = false ∧ envLookup env k = none)
            ↔ (k ∈ (n :: rest).filterMap _extract_dotted_path ∧ ¬k = ""
              ∧ io k = true ∧ hasDot k = false ∧ envLookup env k = none) := by
          constructor
          · rintro ⟨hm, hq⟩
            refine ⟨?_, hq⟩
            cases hx : _extract_dotted_path n <;>
              simp [List.filterMap_cons, hx, hm]
          · rintro ⟨hm, hq⟩
            refine ⟨?_, hq⟩
            cases hx : _extract_dotted_path n with
            | none => simpa [List.filterMap_cons, hx] using hm
            | some name =>
                rw [List.filterMap_cons, hx] at hm
                rcases List.mem_cons.mp hm with hk | hk
                · exfalso
                  subst hk
                  exact hC0 ⟨hx, hq⟩
                · exact hk
        exact if_congr hiff rfl rfl

lemma resolveNames_preserves (io : String → Bool) (ns : List Expr)
    (env : Env) (k : String) (v : Value) (h : envLookup env k = some v) :
    envLookup (resolveNames io env ns).1 k = some v := by
  rw [resolveNames_fst_lookup, if_neg]
  · exact h
  · rintro ⟨-, -, -, -, hn⟩
    rw [h] at hn
    cases hn

lemma resolveOne_snd_of_extract (io : String → Bool) (env : Env) (n : Expr)
    (name : String) (hx : _extract_dotted_path n = some name)
    (hne : ¬name = "") :
    (resolveOne io env n).2 = [.importCalled name] := by
  by_cases hio : io name
  · by_cases hcond : hasDot name = false ∧ envLookup env name = none <;>
      simp [resolveOne, hx, hne, hio, hcond]
  · simp [resolveOne, hx, hne, hio]

lemma resolveNames_import_mem (io : String → Bool) :
    ∀ (ns : List Expr) (env : Env) (name : String),
    name ∈ ns.filterMap _extract_dotted_path → ¬name = "" →
    Event.importCalled name ∈ (resolveNames io env ns).2 := by
  intro ns
  induction ns with
  | nil =>
      intro env name hmem _
      simp at hmem
  | cons n rest ih =>
      intro env name hmem hne
      rw [resolveNames_snd_cons]
      cases hx : _extract_dotted_path n with
      | none =>
          rw [List.filterMap_cons, hx] at hmem
          exact List.mem_append_right _ (ih _ name hmem hne)
      | some nm =>
          rw [List.filterMap_cons, hx] at hmem
          rcases List.mem_cons.mp hmem with hk | hk
          · subst hk
            rw [resolveOne_snd_of_extract io env n name hx hne]
            exact List.mem_append_left _ (List.mem_singleton.mpr rfl)
          · exact List.mem_append_right _ (ih _ name hk hne)

lemma spawnBody_snd_env (m : ConfiguredShellModule) (env : Env) :
    (spawnBody m env).2.1 = env := by
  unfold spawnBody
  cases (Shell.spawn m.backend env).1 <;> rfl

lemma spawnBody_snd_trace (m : ConfiguredShellModule) (env : Env) :
    (spawnBody m env).2.2 = (Shell.spawn m.backend env).2 := by
  unfold spawnBody
  cases (Shell.spawn m.backend env).1 <;> rfl

lemma runBody_env_preserves (m : ConfiguredShellModule) (io : String → Bool)
    (parse : String → Option Expr) (cmd : Option String) (env : Env)
    (k : String) (v : Value) (h : envLookup env k = some v) :
    envLookup (runBody m io parse cmd env).2.1 k = some v := by
  cases cmd with
  | none =>
      show envLookup (spawnBody m env).2.1 k = some v
      rw [spawnBody_snd_env, h]
  | some c =>
      by_cases hc : c = ""
      · show envLookup (if c = "" then spawnBody m env
            else exprBody io parse c env).2.1 k = some v
        rw [if_pos hc, spawnBody_snd_env, h]
      · show envLookup (if c = "" then spawnBody m env
            else exprBody io parse c env).2.1 k = some v
        rw [if_neg hc]
        unfold exprBody
        cases hp : parse c with
        | none => exact h
        | some e => exact resolveNames_preserves io e.nodes env k v h

lemma isBody_not_isCallback (e : Event) (h : e.isBody = true) :
    e.isCallback = false := by
  cases e <;> simp_all [Event.isBody, Event.isCallback]

lemma isBody_not_isDestroy (e : Event) (h : e.isBody = true) :
    e.isDestroy = false := by
  cases e <;> simp_all [Event.isBody, Event.isDestroy]

lemma spawn_events_isBody (b : ShellBackend) (env : Env) :
    ∀ e ∈ (Shell.spawn b env).2, e.isBody = true := by
  intro e he
  unfold Shell.spawn at he
  by_cases ha : b.is_available = false
  · by_cases hi : b.autoinstall = false
    · rw [if_pos ha, if_pos hi] at he
      simp at he
    · rw [if_pos ha, if_neg hi] at he
      cases hr : b.install_result <;> rw [hr] at he
      · simp at he
        simp [he, Event.isBody]
      · simp at he
        rcases he with h | h <;> simp [h, Event.isBody]
  · rw [if_neg ha] at he
    simp at he
    simp [he, Event.isBody]

lemma resolveOne_snd_cases (io : String → Bool) (env : Env) (n : Expr) :
    (resolveOne io env n).2 = []
    ∨ ∃ name, (resolveOne io env n).2 = [.importCalled name] := by
  cases hx : _extract_dotted_path n with
  | none => exact Or.inl (by simp [resolveOne, hx])
  | some name =>
      by_cases hne : name = ""
      · exact Or.inl (by simp [resolveOne, hx, hne])
      · by_cases hio : io name = true
        · by_cases hcond : hasDot name = false ∧ envLookup env name = none
          · exact Or.inr ⟨name, by simp [resolveOne, hx, hne, hio, hcond]⟩
          · exact Or.inr ⟨name, by simp [resolveOne, hx, hne, hio, hcond]⟩
        · exact Or.inr ⟨name, by simp [resolveOne, hx, hne, hio]⟩

lemma resolveNames_events_isBody (io : String → Bool) :
    ∀ (ns : List Expr) (env : Env), ∀ e ∈ (resolveNames io env ns).2,
    e.isBody = true := by
  intro ns
  induction ns with
  | nil => intro env e he; simp [resolveNames] at he
  | cons n rest ih =>
      intro env e he
      rw [resolveNames_snd_cons] at he
      rcases List.mem_append.mp he with h | h
      · rcases resolveOne_snd_cases io env n with hc | ⟨name, hc⟩
        · rw [hc] at h
          simp at h
        · rw [hc] at h
          simp at h
          simp [h, Event.isBody]
      · exact ih _ e h

lemma runBody_events_isBody (m : ConfiguredShellModule) (io : String → Bool)
    (parse : String → Option Expr) (cmd : Option String) (env : Env) :
    ∀ e ∈ (runBody m io parse cmd env).2.2, e.isBody = true := by
  intro e he
  cases cmd with
  | none =>
      rw [show (runBody m io parse none env) = spawnBody m env from rfl,
        spawnBody_snd_trace] at he
      exact spawn_events_isBody m.backend env e he
  | some c =>
      by_cases hc : c = ""
      · rw [show (runBody m io parse (some c) env)
            = if c = "" then spawnBody m env else exprBody io parse c env
            from rfl, if_pos hc, spawnBody_snd_trace] at he
        exact spawn_events_isBody m.backend env e he
      · rw [show (runBody m io parse (some c) env)
            = if c = "" then spawnBody m env else exprBody io parse c env
            from rfl, if_neg hc] at he
        unfold exprBody at he
        cases hp : parse c <;> rw [hp] at he
        · simp at he
        · rename_i ex
          simp at he
          rcases he with h | h
          · exact resolveNames_events_isBody io ex.nodes env e h
          · simp [h, Event.isBody]

lemma destroyEvents_append (a b : List Event) :
    destroyEvents (a ++ b) = destroyEvents a ++ destroyEvents b := by
  simp [destroyEvents]

lemma destroyEvents_of_isBody (l : List Event)
    (h : ∀ e ∈ l, e.isBody = true) : destroyEvents l = [] := by
  induction l with
  | nil => rfl
  | cons e rest ih =>
      have he : e.isBody = true := h e (List.mem_cons_self e rest)
      have hd : e.isDestroy = false := isBody_not_isDestroy e he
      simp [destroyEvents, List.filter_cons, hd]
      have := ih (fun x hx => h x (List.mem_cons_of_mem e hx))
      simpa [destroyEvents] using this

lemma destroyEvents_seedTrace (m : ConfiguredShellModule) :
    destroyEvents (seedTrace m) = [] := by
  cases h : m.hasCtx <;>
    simp [seedTrace, h, destroyEvents, Event.isDestroy]

lemma isCallback_not_isDestroy (e : Event) (h : e.isCallback = true) :
    e.isDestroy = false := by
  cases e <;> simp_all [Event.isCallback, Event.isDestroy]

lemma isCallback_not_isBody (e : Event) (h : e.isCallback = true) :
    e.isBody = false := by
  cases e <;> simp_all [Event.isCallback, Event.isBody]

lemma callbackTrace_events_isCallback :
    ∀ (cbs : List (Env → Env)) (env : Env) (i : Nat),
    ∀ e ∈ callbackTrace cbs env i, e.isCallback = true := by
  intro cbs
  induction cbs with
  | nil => intro env i e he; simp [callbackTrace] at he
  | cons c rest ih =>
      intro env i e he
      rcases List.mem_cons.mp he with heq | hmem
      · simp [heq, Event.isCallback]
      · exact ih (c env) (i + 1) e hmem

lemma destroyEvents_callbackTrace (cbs : List (Env → Env)) (env : Env)
    (i : Nat) : destroyEvents (callbackTrace cbs env i) = [] := by
  induction cbs generalizing env i with
  | nil => rfl
  | cons c rest ih =>
      simp [callbackTrace, destroyEvents, List.filter_cons, Event.isDestroy]
      simpa [destroyEvents] using ih (c env) (i + 1)

lemma callbackTrace_length :
    ∀ (cbs : List (Env → Env)) (env : Env) (i : Nat),
    (callbackTrace cbs env i).length = cbs.length := by
  intro cbs
  induction cbs with
  | nil => intro env i; rfl
  | cons c rest ih =>
      intro env i
      simp [callbackTrace, ih (c env) (i + 1)]

lemma callbackTrace_get :
    ∀ (cbs : List (Env → Env)) (env : Env) (i j : Nat), j < cbs.length →
    (callbackTrace cbs env i)[j]? =
      some (.callbackCalled (i + j) (applyCbs (cbs.take j) env)) := by
  intro cbs
  induction cbs with
  | nil => intro env i j hj; simp at hj
  | cons c rest ih =>
      intro env i j hj
      cases j with
      | zero => simp [callbackTrace, applyCbs]
      | succ j =>
          have hj' : j < rest.length := by simpa using hj
          simp only [callbackTrace, List.getElem?_cons_succ]
          rw [ih (c env) (i + 1) j hj']
          have ha : applyCbs ((c :: rest).take (j + 1)) env
              = applyCbs (rest.take j) (c env) := rfl
          rw [ha]
          congr 2
          omega

lemma callbackTrace_mem_env (s : Value) (cx : Option Value) :
    ∀ (cbs : List (Env → Env)) (env : Env) (i : Nat),
    (∀ f ∈ cbs, preservesKey "score" f ∧ preservesKey "ctx" f) →
    envLookup env "score" = some s → envLookup env "ctx" = cx →
    ∀ j envj, Event.callbackCalled j envj ∈ callbackTrace cbs env i →
    envLookup envj "score" = some s ∧ envLookup envj "ctx" = cx := by
  intro cbs
  induction cbs with
  | nil => intro env i _ _ _ j envj hmem; simp [callbackTrace] at hmem
  | cons c rest ih =>
      intro env i h hs hc j envj hmem
      rcases List.mem_cons.mp hmem with heq | hmem
      · injection heq with h1 h2
        subst h2
        exact ⟨hs, hc⟩
      · have hcb := h c (List.mem_cons_self c rest)
        refine ih (c env) (i + 1)
          (fun f hf => h f (List.mem_cons_of_mem c hf)) ?_ ?_ j envj hmem
        · rw [hcb.1 env, hs]
        · rw [hcb.2 env, hc]

lemma envAtBody_score (m : ConfiguredShellModule)
    (h : ∀ f ∈ m.callbacks, preservesKey "score" f) :
    envLookup (envAtBody m) "score" = some m.score := by
  unfold envAtBody
  rw [applyCbs_preserves "score" m.callbacks (envSeed m) h, envSeed_score]

lemma envAtBody_ctx (m : ConfiguredShellModule)
    (h : ∀ f ∈ m.callbacks, preservesKey "ctx" f) :
    envLookup (envAtBody m) "ctx" =
      if m.hasCtx then some .ctxInstance else none := by
  unfold envAtBody
  rw [applyCbs_preserves "ctx" m.callbacks (envSeed m) h, envSeed_ctx]

lemma isDestroy_not_isCallback (e : Event) (h : e.isDestroy = true) :
    e.isCallback = false := by
  cases e <;> simp_all [Event.isDestroy, Event.isCallback]

lemma teardown_events_isDestroy (m : ConfiguredShellModule) (env : Env)
    (r : Except Err Value) : ∀ e ∈ (teardown m env r).2, e.isDestroy = true := by
  intro e he
  unfold teardown at he
  by_cases hb : m.hasCtx = true
  · rw [if_pos hb] at he
    cases hl : envLookup env "ctx" <;> rw [hl] at he
    · simp at he
    · cases r <;> simp at he <;> simp [he, Event.isDestroy]
  · rw [if_neg hb] at he
    simp at he

lemma call_result_and_destroy (m : ConfiguredShellModule)
    (io : String → Bool) (parse : String → Option Expr) (cmd : Option String)
    (h1 : m.hasCtx = true)
    (h2 : ∀ f ∈ m.callbacks, preservesKey "ctx" f) :
    (m.call io parse cmd).1 = (bodyOut m io parse cmd).1
    ∧ destroyEvents (m.call io parse cmd).2 =
        [match (bodyOut m io parse cmd).1 with
         | .ok _ => Event.destroyCalled .ctxInstance none
         | .error e => Event.destroyCalled .ctxInstance (some e)] := by
  have hctx : envLookup (envAtBody m) "ctx" = some .ctxInstance := by
    rw [envAtBody_ctx m h2, if_pos h1]
  have hfin : envLookup (bodyOut m io parse cmd).2.1 "ctx" = some .ctxInstance :=
    runBody_env_preserves m io parse cmd (envAtBody m) "ctx" .ctxInstance hctx
  constructor
  · show (teardown m (bodyOut m io parse cmd).2.1 (bodyOut m io parse cmd).1).1
        = (bodyOut m io parse cmd).1
    unfold teardown
    rw [if_pos h1, hfin]
    cases (bodyOut m io parse cmd).1 <;> rfl
  · show destroyEvents (seedTrace m ++ callbackTrace m.callbacks (envSeed m) 0
        ++ (bodyOut m io parse cmd).2.2
        ++ (teardown m (bodyOut m io parse cmd).2.1 (bodyOut m io parse cmd).1).2) = _
    rw [destroyEvents_append, destroyEvents_append, destroyEvents_append]
    rw [destroyEvents_seedTrace, destroyEvents_callbackTrace,
      destroyEvents_of_isBody (bodyOut m io parse cmd).2.2
        (runBody_events_isBody m io parse cmd (envAtBody m))]
    simp only [List.nil_append]
    unfold teardown
    rw [if_pos h1, hfin]
    cases (bodyOut m io parse cmd).1 <;>
      simp [destroyEvents, List.filter, Event.isDestroy]

lemma resolveCallbacks_unresolved (pdp : String → Option PyObj) :
    ∀ (pre : List String) (p : String) (rest : List String),
    (∀ q ∈ pre, ∃ o, pdp q = some o ∧ o.isCallable = true) →
    pdp p = none →
    resolveCallbacks pdp (pre ++ p :: rest) = .error (.configurationError p) := by
  intro pre
  induction pre with
  | nil => intro p rest _ hp; simp [resolveCallbacks, hp]
  | cons q pre ih =>
      intro p rest h hp
      obtain ⟨o, ho, hco⟩ := h q (List.mem_cons_self q pre)
      have hrec := ih p rest (fun r hr => h r (List.mem_cons_of_mem q hr)) hp
      simp [resolveCallbacks, ho, hco, hrec]

lemma resolveCallbacks_not_callable (pdp : String → Option PyObj) :
    ∀ (pre : List String) (p : String) (rest : List String) (obj : PyObj),
    (∀ q ∈ pre, ∃ o, pdp q = some o ∧ o.isCallable = true) →
    pdp p = some obj → obj.isCallable = false →
    resolveCallbacks pdp (pre ++ p :: rest)
      = .error (.configurationError ("Given callback not callable: " ++ p)) := by
  intro pre
  induction pre with
  | nil =>
      intro p rest obj _ hp hc
      simp [resolveCallbacks, hp, hc]
  | cons q pre ih =>
      intro p rest obj h hp hc
      obtain ⟨o, ho, hco⟩ := h q (List.mem_cons_self q pre)
      have hrec := ih p rest obj (fun r hr => h r (List.mem_cons_of_mem q hr)) hp hc
      simp [resolveCallbacks, ho, hco, hrec]

/-- Claim C1: for every façade call with a configured context factory
(under the spec's standing assumption that callbacks leave the context
binding in place), the context instance is destroyed exactly once on
every exit path — the trace contains exactly one destroy event, which is
`destroy()` when the body (backend spawn or expression evaluation)
completes without raising and `destroy(error)` carrying the original
error when the body raises, never both — and the call's outcome is
exactly the body's outcome: the original failure is re-raised unchanged,
with no wrapping and no suppression. -/
theorem ctx_destroyed_exactly_once (m : ConfiguredShellModule)
    (io : String → Bool) (parse : String → Option Expr) (cmd : Option String)
    (h1 : m.hasCtx = true)
    (h2 : ∀ f ∈ m.callbacks, preservesKey "ctx" f) :
    (m.call io parse cmd).1 = (bodyOut m io parse cmd).1
    ∧ destroyEvents (m.call io parse cmd).2 =
        [match (bodyOut m io parse cmd).1 with
         | .ok _ => Event.destroyCalled .ctxInstance none
         | .error e => Event.destroyCalled .ctxInstance (some e)] :=
  call_result_and_destroy m io parse cmd h1 h2

theorem ctx_destroyed_exactly_once_witness :
    sampleCtxModule.hasCtx = true
    ∧ (∀ f ∈ sampleCtxModule.callbacks, preservesKey "ctx" f)
    ∧ ((sampleCtxModule.call (fun _ => false) sampleParse (some "x")).1
        = (bodyOut sampleCtxModule (fun _ => false) sampleParse (some "x")).1
      ∧ destroyEvents
          (sampleCtxModule.call (fun _ => false) sampleParse (some "x")).2 =
        [match (bodyOut sampleCtxModule (fun _ => false) sampleParse
            (some "x")).1 with
         | .ok _ => Event.destroyCalled .ctxInstance none
         | .error e => Event.destroyCalled .ctxInstance (some e)]) :=
  ⟨rfl, fun f hf => absurd hf (List.not_mem_nil f),
   ctx_destroyed_exactly_once sampleCtxModule (fun _ => false) sampleParse
     (some "x") rfl (fun f hf => absurd hf (List.not_mem_nil f))⟩

/-- Claim C2, counterexample: on the unparseable expression `"("` (with a
context factory configured), the context is NOT destroyed via the
no-error `destroy()` form — the parse failure is raised inside the
`with` block, so `_create_env`'s `except` clause destroys the context
with the error: the trace holds `destroy(SyntaxError)` and no clean
`destroy()`. -/
theorem parse_error_clean_destroy_counterexample :
    (sampleCtxModule.call (fun _ => false) sampleParse (some "(")).1
      = .error (.syntaxError "(")
    ∧ Event.destroyCalled .ctxInstance none
        ∉ (sampleCtxModule.call (fun _ => false) sampleParse (some "(")).2
    ∧ Event.destroyCalled .ctxInstance (some (.syntaxError "("))
        ∈ (sampleCtxModule.call (fun _ => false) sampleParse (some "(")).2 :=
  ⟨by decide, by decide, by decide⟩

/-- Claim C2, amended: for every unparseable expression string (with a
context factory configured and callbacks leaving the context binding in
place), the façade raises the malformed-expression (`SyntaxError`) error,
which propagates to the caller — but the context is destroyed via the
error form `destroy(error)` carrying that parse error (exactly once),
not via the no-error `destroy()` form. -/
theorem parse_error_destroys_with_error (m : ConfiguredShellModule)
    (io : String → Bool) (parse : String → Option Expr) (c : String)
    (h1 : m.hasCtx = true)
    (h2 : ∀ f ∈ m.callbacks, preservesKey "ctx" f)
    (h3 : ¬c = "") (h4 : parse c = none) :
    (m.call io parse (some c)).1 = .error (.syntaxError c)
    ∧ destroyEvents (m.call io parse (some c)).2 =
        [Event.destroyCalled .ctxInstance (some (.syntaxError c))] := by
  have hbody : (bodyOut m io parse (some c)).1 = .error (.syntaxError c) := by
    show (if c = "" then spawnBody m (envAtBody m)
        else exprBody io parse c (envAtBody m)).1 = _
    rw [if_neg h3]
    unfold exprBody
    rw [h4]
  obtain ⟨hres, hdes⟩ := call_result_and_destroy m io parse (some c) h1 h2
  rw [hbody] at hres hdes
  exact ⟨hres, hdes⟩

theorem parse_error_destroys_with_error_witness :
    sampleCtxModule.hasCtx = true
    ∧ (¬"(" = "") ∧ sampleParse "(" = none
    ∧ ((sampleCtxModule.call (fun _ => false) sampleParse (some "(")).1
        = .error (.syntaxError "(")
      ∧ destroyEvents
          (sampleCtxModule.call (fun _ => false) sampleParse (some "(")).2 =
        [Event.destroyCalled .ctxInstance (some (.syntaxError "("))]) :=
  ⟨rfl, by decide, by decide,
   parse_error_destroys_with_error sampleCtxModule (fun _ => false) sampleParse
     "(" rfl (fun f hf => absurd hf (List.not_mem_nil f)) (by decide) (by decide)⟩

/-- Claim C3: for every expression and environment, the Name Resolver
walks every node: the final binding of any key `k` is `module k` exactly
when `k` is a dotted-path candidate of some walked node, the import
succeeds, the path contains no dot and `k` was not already present —
otherwise the binding is unchanged (so dotted multi-segment paths are
never bound under their full dotted name, and a failed import changes
nothing); moreover every non-empty candidate — dotted ones included — is
passed to `__import__`. The equation holds for every import oracle, so a
failed import never aborts resolution and no import error reaches the
caller. -/
theorem resolver_binds_exactly (io : String → Bool) (env : Env) (e : Expr)
    (k : String) :
    envLookup (resolveNames io env e.nodes).1 k =
      (if k ∈ e.nodes.filterMap _extract_dotted_path ∧ ¬k = "" ∧ io k = true
          ∧ hasDot k = false ∧ envLookup env k = none
       then some (.module k) else envLookup env k)
    ∧ (∀ name ∈ e.nodes.filterMap _extract_dotted_path, ¬name = "" →
        Event.importCalled name ∈ (resolveNames io env e.nodes).2) :=
  ⟨resolveNames_fst_lookup io e.nodes env k,
   fun name hm hne => resolveNames_import_mem io e.nodes env name hm hne⟩

theorem resolver_binds_exactly_witness :
    ("os" ∈ (Expr.attr (.name "os") "path").nodes.filterMap _extract_dotted_path
      ∧ ¬"os" = "" ∧ hasDot "os" = false
      ∧ envLookup [("score", Value.appHandle)] "os" = none)
    ∧ envLookup (resolveNames (fun _ => true) [("score", Value.appHandle)]
        (Expr.attr (.name "os") "path").nodes).1 "os" = some (.module "os")
    ∧ Event.importCalled "os.path" ∈ (resolveNames (fun _ => true)
        [("score", Value.appHandle)] (Expr.attr (.name "os") "path").nodes).2 := by
  refine ⟨⟨by decide, by decide, by decide, by decide⟩, ?_, ?_⟩
  · rw [(resolver_binds_exactly (fun _ => true) [("score", Value.appHandle)]
      (Expr.attr (.name "os") "path") "os").1]
    rw [if_pos ⟨by decide, by decide, rfl, by decide, by decide⟩]
  · exact (resolver_binds_exactly (fun _ => true) [("score", Value.appHandle)]
      (Expr.attr (.name "os") "path") "os").2 "os.path" (by decide) (by decide)

/-- Claim C4: for every backend and environment, the public spawn
operation spawns directly (no install step) when the availability check
returns true; installs and then spawns when availability is false and
the autoinstall flag is set (and the install returns normally); and when
availability is false with autoinstall disabled it raises the
backend-unavailable exception naming the backend, with an empty trace —
so it never spawns. -/
theorem spawn_autoinstall_dispatch (b : ShellBackend) (env : Env) :
    (b.is_available = true →
      Shell.spawn b env = (b.spawn_result, [.spawnCalled b.name env]))
    ∧ (b.is_available = false → b.autoinstall = true →
        b.install_result = .ok () →
        Shell.spawn b env
          = (b.spawn_result, [.installCalled b.name, .spawnCalled b.name env]))
    ∧ (b.is_available = false → b.autoinstall = false →
        Shell.spawn b env
          = (.error (.exception
              ("Configured shell \x60" ++ b.name ++ "\x27 not available")), [])) := by
  refine ⟨?_, ?_, ?_⟩
  · intro ha
    unfold Shell.spawn
    rw [ha]
    simp
  · intro ha hi hr
    unfold Shell.spawn
    rw [ha, hi, hr]
    simp
  · intro ha hi
    unfold Shell.spawn
    rw [ha, hi]
    simp

theorem spawn_autoinstall_dispatch_witness :
    ((PythonShell true).is_available = true
      ∧ Shell.spawn (PythonShell true) []
          = ((PythonShell true).spawn_result, [.spawnCalled "python" []]))
    ∧ ((BPythonShell (fun _ => false) false).is_available = false
      ∧ (BPythonShell (fun _ => false) false).autoinstall = false
      ∧ Shell.spawn (BPythonShell (fun _ => false) false) []
          = (.error (.exception
              ("Configured shell \x60" ++ "bpython" ++ "\x27 not available")), []))
    ∧ ((BPythonShell (fun _ => false) true).is_available = false
      ∧ (BPythonShell (fun _ => false) true).autoinstall = true
      ∧ (BPythonShell (fun _ => false) true).install_result = .ok ()
      ∧ Shell.spawn (BPythonShell (fun _ => false) true) []
          = ((BPythonShell (fun _ => false) true).spawn_result,
             [.installCalled "bpython", .spawnCalled "bpython" []])) :=
  ⟨⟨rfl, (spawn_autoinstall_dispatch (PythonShell true) []).1 rfl⟩,
   ⟨rfl, rfl, (spawn_autoinstall_dispatch (BPythonShell (fun _ => false) false) []).2.2 rfl rfl⟩,
   ⟨rfl, rfl, rfl,
    (spawn_autoinstall_dispatch (BPythonShell (fun _ => false) true) []).2.1 rfl rfl rfl⟩⟩

/-- Claim C5: for every façade call (with callbacks that leave the two
reserved keys untouched, per the spec's assumption), the trace splits as
`pre ++ callback events ++ post` where `pre` holds only the context
creation and `post` holds no callback event: each configured callback is
invoked exactly once, the `j`-th callback event carries index `j` and
the environment obtained by applying the first `j` callbacks to the
seeded environment (configured registration order), every environment
handed to a callback already binds the application handle — and the
context instance exactly when a context factory is configured — and no
body event (import, evaluation, install, spawn) precedes the callbacks. -/
theorem callbacks_called_once_in_order (m : ConfiguredShellModule)
    (io : String → Bool) (parse : String → Option Expr) (cmd : Option String)
    (h : ∀ f ∈ m.callbacks, preservesKey "score" f ∧ preservesKey "ctx" f) :
    (∃ pre post, (m.call io parse cmd).2
        = pre ++ callbackTrace m.callbacks (envSeed m) 0 ++ post
      ∧ (∀ e ∈ pre, e = Event.ctxCreated)
      ∧ (∀ e ∈ post, e.isCallback = false))
    ∧ (callbackTrace m.callbacks (envSeed m) 0).length = m.callbacks.length
    ∧ (∀ j, j < m.callbacks.length →
        (callbackTrace m.callbacks (envSeed m) 0)[j]? =
          some (Event.callbackCalled j (applyCbs (m.callbacks.take j) (envSeed m))))
    ∧ (∀ j envj,
        Event.callbackCalled j envj ∈ callbackTrace m.callbacks (envSeed m) 0 →
        envLookup envj "score" = some m.score
        ∧ (envLookup envj "ctx" = some Value.ctxInstance ↔ m.hasCtx = true))
    ∧ (∀ e ∈ callbackTrace m.callbacks (envSeed m) 0, e.isBody = false) := by
  refine ⟨⟨seedTrace m,
      (bodyOut m io parse cmd).2.2
        ++ (teardown m (bodyOut m io parse cmd).2.1 (bodyOut m io parse cmd).1).2,
      ?_, ?_, ?_⟩, ?_, ?_, ?_, ?_⟩
  · show seedTrace m ++ callbackTrace m.callbacks (envSeed m) 0
        ++ (bodyOut m io parse cmd).2.2
        ++ (teardown m (bodyOut m io parse cmd).2.1 (bodyOut m io parse cmd).1).2
      = _
    rw [List.append_assoc, List.append_assoc]
  · intro e he
    by_cases hb : m.hasCtx = true
    · simp [seedTrace, hb] at he
      exact he
    · simp [seedTrace, hb] at he
  · intro e he
    rcases List.mem_append.mp he with hbody | htd
    · exact isBody_not_isCallback e
        (runBody_events_isBody m io parse cmd (envAtBody m) e hbody)
    · exact isDestroy_not_isCallback e
        (teardown_events_isDestroy m (bodyOut m io parse cmd).2.1
          (bodyOut m io parse cmd).1 e htd)
  · exact callbackTrace_length m.callbacks (envSeed m) 0
  · intro j hj
    simpa using callbackTrace_get m.callbacks (envSeed m) 0 j hj
  · intro j envj hmem
    have hres := callbackTrace_mem_env m.score
      (if m.hasCtx then some Value.ctxInstance else none)
      m.callbacks (envSeed m) 0 h (envSeed_score m) (envSeed_ctx m) j envj hmem
    refine ⟨hres.1, ?_⟩
    rw [hres.2]
    cases hb : m.hasCtx <;> simp [hb]
  · intro e he
    exact isCallback_not_isBody e
      (callbackTrace_events_isCallback m.callbacks (envSeed m) 0 e he)

theorem callbacks_called_once_in_order_witness :
    (∀ f ∈ sampleCbModule.callbacks,
      preservesKey "score" f ∧ preservesKey "ctx" f)
    ∧ (callbackTrace sampleCbModule.callbacks (envSeed sampleCbModule) 0).length
        = sampleCbModule.callbacks.length
    ∧ (∃ pre post,
        (sampleCbModule.call (fun _ => false) sampleParse none).2
          = pre ++ callbackTrace sampleCbModule.callbacks (envSeed sampleCbModule) 0
              ++ post
        ∧ (∀ e ∈ pre, e = Event.ctxCreated)
        ∧ (∀ e ∈ post, e.isCallback = false)) := by
  have hpres : ∀ f ∈ sampleCbModule.callbacks,
      preservesKey "score" f ∧ preservesKey "ctx" f := by
    intro f hf
    rcases List.mem_singleton.mp hf with rfl
    exact ⟨fun env => envLookup_insert_ne env "answer" "score" (.int 42) (by decide),
           fun env => envLookup_insert_ne env "answer" "ctx" (.int 42) (by decide)⟩
  have h := callbacks_called_once_in_order sampleCbModule (fun _ => false)
    sampleParse none hpres
  exact ⟨hpres, h.2.1, h.1⟩

/-- Claim C6: initialization fails before any environment exists — `init`
only resolves configuration and never builds an environment — with a
configuration error naming the invalid value whenever the configured
backend is neither a built-in registry name nor resolvable as a dotted
path (and with an initialization-time `TypeError` naming the value when
the path resolves to a non-callable object), and with a configuration
error whenever a configured callback path fails to resolve or resolves
to a non-callable; for the three built-in names, initialization succeeds
and constructs the matching backend. -/
theorem init_configuration_errors (conf : ShellConf) (hasCtx : Bool)
    (io : String → Bool) (pdp : String → Option PyObj) (score : Value) :
    (∀ cbs, resolveCallbacks pdp conf.callbacks = .ok cbs →
      ((conf.backend = "python" →
          init conf hasCtx io pdp score
            = .ok ⟨hasCtx, PythonShell conf.autoinstall, cbs, score⟩)
       ∧ (conf.backend = "ipython" →
          init conf hasCtx io pdp score
            = .ok ⟨hasCtx, IPythonShell io conf.autoinstall, cbs, score⟩)
       ∧ (conf.backend = "bpython" →
          init conf hasCtx io pdp score
            = .ok ⟨hasCtx, BPythonShell io conf.autoinstall, cbs, score⟩)))
    ∧ (Shell.get io conf.backend = none → pdp conf.backend = none →
        init conf hasCtx io pdp score
          = .error (.configurationError conf.backend))
    ∧ (∀ obj, Shell.get io conf.backend = none → pdp conf.backend = some obj →
        obj.isCallable = false →
        init conf hasCtx io pdp score = .error (.typeError conf.backend))
    ∧ (∀ cls pre p rest, Shell.get io conf.backend = some cls →
        conf.callbacks = pre ++ p :: rest →
        (∀ q ∈ pre, ∃ o, pdp q = some o ∧ o.isCallable = true) →
        pdp p = none →
        init conf hasCtx io pdp score = .error (.configurationError p))
    ∧ (∀ cls pre p rest obj, Shell.get io conf.backend = some cls →
        conf.callbacks = pre ++ p :: rest →
        (∀ q ∈ pre, ∃ o, pdp q = some o ∧ o.isCallable = true) →
        pdp p = some obj → obj.isCallable = false →
        init conf hasCtx io pdp score
          = .error (.configurationError
              ("Given callback not callable: " ++ p))) := by
  refine ⟨?_, ?_, ?_, ?_, ?_⟩
  · intro cbs hcbs
    refine ⟨?_, ?_, ?_⟩ <;> intro hb <;>
      simp [init, Shell.get, hb, hcbs]
  · intro hget hpdp
    simp [init, hget, hpdp]
  · intro obj hget hpdp hc
    simp [init, hget, hpdp, hc]
  · intro cls pre p rest hget hcb hpre hp
    have hres := resolveCallbacks_unresolved pdp pre p rest hpre hp
    rw [← hcb] at hres
    simp [init, hget, hres]
  · intro cls pre p rest obj hget hcb hpre hp hc
    have hres := resolveCallbacks_not_callable pdp pre p rest obj hpre hp hc
    rw [← hcb] at hres
    simp [init, hget, hres]

theorem init_configuration_errors_witness :
    (Shell.get (fun _ => false) (ShellConf.backend (ShellConf.mk "python" true ["mycb"]))
        = some PythonShell
      ∧ (ShellConf.mk "python" true ["mycb"]).callbacks = [] ++ "mycb" :: []
      ∧ (fun (_ : String) => (none : Option PyObj)) "mycb" = none)
    ∧ init (ShellConf.mk "python" true ["mycb"])
        false (fun _ => false) (fun _ => none) .appHandle
        = .error (.configurationError "mycb") :=
  ⟨⟨rfl, rfl, rfl⟩,
   (init_configuration_errors (ShellConf.mk "python" true ["mycb"])
      false (fun _ => false) (fun _ => none) .appHandle).2.2.2.1
     PythonShell [] "mycb" [] rfl rfl
     (fun q hq => absurd hq (List.not_mem_nil q)) rfl⟩

/-- Claim C7: the environment handed to the body is built fresh from the
seed `{'score': self.score}` of the current call (the last two conjuncts
tie it definitionally to the per-call construction, so nothing persists
across calls), it always binds the application-handle key `score` to the
application, and it binds the context key `ctx` to the context instance
exactly when a context factory was supplied — under the stated assumption
that callbacks do not touch those two keys. -/
theorem env_fresh_with_handle_and_ctx (m : ConfiguredShellModule)
    (h : ∀ f ∈ m.callbacks, preservesKey "score" f ∧ preservesKey "ctx" f) :
    envLookup (envAtBody m) "score" = some m.score
    ∧ (envLookup (envAtBody m) "ctx" = some Value.ctxInstance ↔ m.hasCtx = true)
    ∧ (∀ io parse cmd, bodyOut m io parse cmd
        = runBody m io parse cmd (envAtBody m))
    ∧ envAtBody m = applyCbs m.callbacks (envSeed m) := by
  refine ⟨envAtBody_score m (fun f hf => (h f hf).1), ?_,
    fun _ _ _ => rfl, rfl⟩
  rw [envAtBody_ctx m (fun f hf => (h f hf).2)]
  cases hb : m.hasCtx <;> simp [hb]

theorem env_fresh_with_handle_and_ctx_witness :
    (∀ f ∈ sampleCtxModule.callbacks,
      preservesKey "score" f ∧ preservesKey "ctx" f)
    ∧ envLookup (envAtBody sampleCtxModule) "score" = some Value.appHandle
    ∧ (envLookup (envAtBody sampleCtxModule) "ctx" = some Value.ctxInstance
        ↔ sampleCtxModule.hasCtx = true) := by
  have hpres : ∀ f ∈ sampleCtxModule.callbacks,
      preservesKey "score" f ∧ preservesKey "ctx" f :=
    fun f hf => absurd hf (List.not_mem_nil f)
  have h := env_fresh_with_handle_and_ctx sampleCtxModule hpres
  exact ⟨hpres, h.1, h.2.1⟩

/-- Claim C8, counterexample: `"python-console"` is not one of the
registry names of the source (`python`, `ipython`, `bpython`), and it is
not a resolvable dotted import path (a hyphenated name cannot be one, so
the resolution oracle maps it to failure), so initialization with
`{backend: "python-console", callbacks: []}` raises a configuration
error instead of succeeding. -/
theorem scenario_python_console_counterexample :
    Shell.get (fun _ => false) "python-console" = none
    ∧ init (ShellConf.mk "python-console" true []) false (fun _ => false)
        (fun _ => none) .appHandle
      = .error (.configurationError "python-console") :=
  ⟨rfl, rfl⟩

/-- Claim C8, amended: with configuration `{backend: "python",
callbacks: []}` — `python` being the source's registry name for the
Python console backend the spec calls "python-console" — initialization
succeeds and constructs the Python console backend, invoking the façade
with the expression `"1 + 1"` returns `2`, and invoking it with
`"score"` (the fixed application-handle key) returns the application
handle object itself. -/
theorem scenario_end_to_end (io : String → Bool) (pdp : String → Option PyObj)
    (a : Bool) (parse : String → Option Expr)
    (h1 : parse "1 + 1" = some (.binAdd (.num 1) (.num 1)))
    (h2 : parse "score" = some (.name "score")) :
    init (ShellConf.mk "python" a []) false io pdp .appHandle
      = .ok (samplePythonModule a)
    ∧ ((samplePythonModule a).call io parse (some "1 + 1")).1 = .ok (.int 2)
    ∧ ((samplePythonModule a).call io parse (some "score")).1 = .ok .appHandle := by
  refine ⟨rfl, ?_, ?_⟩
  · show (exprBody io parse "1 + 1" (envAtBody (samplePythonModule a))).1
        = .ok (.int 2)
    unfold exprBody
    rw [h1]
    rfl
  · have hl : envLookup (resolveNames io (envAtBody (samplePythonModule a))
        (Expr.name "score").nodes).1 "score" = some .appHandle := by
      rw [resolveNames_fst_lookup, if_neg]
      · rfl
      · rintro ⟨-, -, -, -, hn⟩
        have hn' : some Value.appHandle = (none : Option Value) := hn
        cases hn'
    show (exprBody io parse "score" (envAtBody (samplePythonModule a))).1
        = .ok .appHandle
    unfold exprBody
    rw [h2]
    show evalExpr (resolveNames io (envAtBody (samplePythonModule a))
        (Expr.name "score").nodes).1 (.name "score") = .ok .appHandle
    unfold evalExpr
    rw [hl]

theorem scenario_end_to_end_witness :
    (sampleParse "1 + 1" = some (.binAdd (.num 1) (.num 1))
      ∧ sampleParse "score" = some (.name "score"))
    ∧ (init (ShellConf.mk "python" true []) false (fun _ => false)
          (fun _ => none) .appHandle = .ok (samplePythonModule true)
      ∧ ((samplePythonModule true).call (fun _ => false) sampleParse
          (some "1 + 1")).1 = .ok (.int 2)
      ∧ ((samplePythonModule true).call (fun _ => false) sampleParse
          (some "score")).1 = .ok .appHandle) :=
  ⟨⟨by decide, by decide⟩,
   scenario_end_to_end (fun _ => false) (fun _ => none) true sampleParse
     (by decide) (by decide)⟩

/-- Claim C9: the default Python console backend's availability check
always returns true, so the public spawn operation goes straight to the
REPL — its trace is exactly one spawn event with no install step, making
the install path unreachable from spawn — while `_install` itself, if it
were ever reached, is the assertion failure `'Should not be here'`. -/
theorem python_backend_never_installs (a : Bool) (env : Env) :
    (PythonShell a).is_available = true
    ∧ Shell.spawn (PythonShell a) env = (.ok (), [.spawnCalled "python" env])
    ∧ (PythonShell a).install_result
        = .error (.assertionError "Should not be here") :=
  ⟨rfl, rfl, rfl⟩

/-- Claim C10: a façade call with the empty string as the expression is
treated exactly like a call with no expression — `if not command:` tests
falsiness, and `""` is falsy — so the two calls are literally equal (for
any, even different, parse and import oracles: the parser is never
consulted), the interactive backend is spawned, and no value is returned
(the call returns Python `None`). -/
theorem empty_command_spawns (m : ConfiguredShellModule)
    (io io2 : String → Bool) (parse parse2 : String → Option Expr)
    (h2 : ∀ f ∈ m.callbacks, preservesKey "ctx" f)
    (h3 : m.backend.is_available = true)
    (h4 : m.backend.spawn_result = .ok ()) :
    m.call io parse (some "") = m.call io2 parse2 none
    ∧ (m.call io parse (some "")).1 = .ok .pyNone
    ∧ Event.spawnCalled m.backend.name (envAtBody m)
        ∈ (m.call io parse (some "")).2 := by
  have hspawn : Shell.spawn m.backend (envAtBody m)
      = (.ok (), [.spawnCalled m.backend.name (envAtBody m)]) := by
    unfold Shell.spawn
    rw [h3, h4]
    simp
  have hbody : bodyOut m io parse (some "")
      = (.ok .pyNone, envAtBody m,
         [.spawnCalled m.backend.name (envAtBody m)]) := by
    show spawnBody m (envAtBody m) = _
    simp [spawnBody, hspawn]
  refine ⟨rfl, ?_, ?_⟩
  · show (teardown m (bodyOut m io parse (some "")).2.1
        (bodyOut m io parse (some "")).1).1 = .ok .pyNone
    rw [hbody]
    by_cases hb : m.hasCtx = true
    · have hc : envLookup (envAtBody m) "ctx" = some Value.ctxInstance := by
        rw [envAtBody_ctx m h2, if_pos hb]
      simp [teardown, hb, hc]
    · simp [teardown, hb]
  · show Event.spawnCalled m.backend.name (envAtBody m)
        ∈ seedTrace m ++ callbackTrace m.callbacks (envSeed m) 0
          ++ (bodyOut m io parse (some "")).2.2
          ++ (teardown m (bodyOut m io parse (some "")).2.1
               (bodyOut m io parse (some "")).1).2
    rw [hbody]
    simp

theorem empty_command_spawns_witness :
    ((∀ f ∈ sampleCtxModule.callbacks, preservesKey "ctx" f)
      ∧ sampleCtxModule.backend.is_available = true
      ∧ sampleCtxModule.backend.spawn_result = .ok ())
    ∧ (sampleCtxModule.call (fun _ => false) sampleParse (some "")
        = sampleCtxModule.call (fun _ => true) (fun _ => none) none
      ∧ (sampleCtxModule.call (fun _ => false) sampleParse (some "")).1
          = .ok .pyNone
      ∧ Event.spawnCalled sampleCtxModule.backend.name
          (envAtBody sampleCtxModule)
          ∈ (sampleCtxModule.call (fun _ => false) sampleParse (some "")).2) :=
  ⟨⟨fun f hf => absurd hf (List.not_mem_nil f), rfl, rfl⟩,
   empty_command_spawns sampleCtxModule (fun _ => false) (fun _ => true)
     sampleParse (fun _ => none)
     (fun f hf => absurd hf (List.not_mem_nil f)) rfl rfl⟩
